import Mathlib

/-!
Verification development for the Arc-it theming and content-localization
library.  The definitions below are a shallow embedding of the TypeScript
source: JSON documents become inductive values, JavaScript objects become
association lists with object-spread and property-assignment operations,
fetch and timing become explicit environments, and thrown exceptions become
an explicit error channel.  Theorems about the embedded functions settle the
specification claims.
-/

namespace ArcIt

/-! ## JavaScript value and object model

A JSON / JavaScript value.  Objects and arrays are modelled structurally;
object fields are an association list in property-insertion order, matching
the enumeration order of string-keyed JavaScript objects. -/

inductive Jval where
  | vStr (s : String)
  | vNum (n : Int)
  | vBool (b : Bool)
  | vNull
  | vObj (fields : List (String × Jval))
  | vArr (elems : List Jval)

/-- The field list of a JavaScript object. -/
abbrev Jobj := List (String × Jval)

/-- Property read on an association list (object keys are unique, so the
first match is the value). -/
def alookup {α : Type} : List (String × α) → String → Option α
  | [], _ => none
  | (k1, v) :: rest, k => if k1 = k then some v else alookup rest k

/-- Property assignment: an existing key keeps its position and gets the new
value; a fresh key is appended, matching JavaScript insertion order. -/
def aset {α : Type} : List (String × α) → String → α → List (String × α)
  | [], k, v => [(k, v)]
  | (k1, v1) :: rest, k, v =>
      if k1 = k then (k, v) :: rest else (k1, v1) :: aset rest k v

/-- Map.delete / delete obj[k]: remove the entry for a key. -/
def adelete {α : Type} (l : List (String × α)) (k : String) : List (String × α) :=
  l.filter (fun kv => decide (kv.1 ≠ k))

/-- JavaScript truthiness of a value. -/
def jsTruthy : Jval → Bool
  | Jval.vStr s => s ≠ ""
  | Jval.vNum n => n ≠ 0
  | Jval.vBool b => b
  | Jval.vNull => false
  | Jval.vObj _ => true
  | Jval.vArr _ => true

/-- JavaScript x || d for an optional string (absent and the empty string
are both falsy). -/
def jsOrS : Option String → String → String
  | some s, d => if s = "" then d else s
  | none, d => d

/-- JavaScript x || d for an optional value (absent and falsy both yield
the default). -/
def jsOrV : Option Jval → Jval → Jval
  | some v, d => if jsTruthy v then v else d
  | none, d => d

/-- String maps (colors, fonts): JavaScript objects whose values are
strings. -/
abbrev Smap := List (String × String)

/-- Object spread for string maps: in a spread of b over a, keys of a keep
their positions (taking the value from b when b also has the key) and the
keys only in b are appended in b's order. -/
def sspread (a b : Smap) : Smap :=
  (a.map fun kv =>
    match alookup b kv.1 with
    | some v => (kv.1, v)
    | none => kv)
  ++ b.filter fun kv => (alookup a kv.1).isNone

/-- Substring test on character lists (String.prototype.includes). -/
def listContainsSub : List Char → List Char → Bool
  | s@(_ :: rest), pat => pat.isPrefixOf s || listContainsSub rest pat
  | [], pat => pat.isEmpty

/-- JavaScript s.includes(sub). -/
def strIncludes (s sub : String) : Bool :=
  listContainsSub s.data sub.data

/-- JavaScript s.toLowerCase() (ASCII, which is all the source compares). -/
def strToLower (s : String) : String := String.mk (s.data.map Char.toLower)

/-- Remove the first occurrence of a (non-empty) pattern from a character
list, as JavaScript s.replace(pat, "") does with a string pattern. -/
def removeFirstSub : List Char → List Char → List Char
  | [], _ => []
  | c :: cs, pat =>
      if pat.isPrefixOf (c :: cs) then (c :: cs).drop pat.length
      else c :: removeFirstSub cs pat

/-- JavaScript name.replace("-light", ""): drop the first occurrence of
the reserved suffix string. -/
def stripLight (s : String) : String :=
  String.mk (removeFirstSub s.data "-light".data)

/-! ## Theme model (src/theme/theme.ts)

The Theme / ThemePreset types.  In the TypeScript type the preset colors
field is declared required, but theme JSON is loaded without validation and
the runtime code guards every access (preset?.colors, spread of a possibly
missing field), so both preset fields are modelled as optional. -/

structure ThemePreset where
  colors : Option Smap
  fonts : Option Smap
  name : Option String
deriving DecidableEq

structure Theme where
  colors : Smap
  fonts : Smap
  presets : Option (List (String × ThemePreset))
deriving DecidableEq

/-- theme.presets?.[presetName] -/
def presetLookup (theme : Theme) (presetName : String) : Option ThemePreset :=
  match theme.presets with
  | none => none
  | some presets => alookup presets presetName

/-- Color lookup inside a preset (none when the colors field is absent). -/
def pcolorsLookup (p : ThemePreset) (k : String) : Option String :=
  match p.colors with
  | some cs => alookup cs k
  | none => none

/-- applyPreset: no-op when the name is not a preset; otherwise the preset
colors and fonts are spread over the current resolved colors and fonts
(spreading a missing field is a no-op, as in JavaScript). -/
def applyPreset (theme : Theme) (presetName : String) : Theme :=
  match presetLookup theme presetName with
  | none => theme
  | some preset =>
      { theme with
        colors := sspread theme.colors (preset.colors.getD [])
        fonts := sspread theme.fonts (preset.fonts.getD []) }

/-- The body font stack of the built-in fallback theme. -/
def systemFontStack : String :=
  "system-ui, -apple-system, BlinkMacSystemFont, \"Segoe UI\", Roboto, sans-serif"

/-- The built-in fallback theme returned when loading fails. -/
def fallbackTheme : Theme :=
  { colors := [("primary", "#0070f3"), ("background", "#ffffff"), ("foreground", "#000000")]
    fonts := [("body", systemFontStack), ("heading", systemFontStack)]
    presets := none }

/-- Outcome of fetching a theme path: a parsed theme document, a delivered
response whose JSON body fails to parse, a delivered non-ok response, or a
rejected fetch. -/
inductive TFetch where
  | ok (body : Theme)
  | badJson
  | httpErr (status : Nat)
  | netErr

/-- The try-block of loadTheme: fetch, throw on !res.ok, parse. -/
def loadThemeTry (env : String → TFetch) (path : String) : Except Unit Theme :=
  match env path with
  | TFetch.ok t => Except.ok t
  | TFetch.badJson => Except.error ()
  | TFetch.httpErr _ => Except.error ()
  | TFetch.netErr => Except.error ()

/-- loadTheme: any failure is caught and replaced by the built-in fallback
theme; the function always resolves. -/
def loadTheme (env : String → TFetch) (path : String) : Theme :=
  match loadThemeTry env path with
  | Except.ok t => t
  | Except.error _ => fallbackTheme

/-! ## ThemeProvider state and toggleDarkMode (src/theme/ThemeProvider.tsx) -/

structure ThemeState where
  theme : Theme
  currentPreset : Option String
  isDarkMode : Bool
deriving DecidableEq

/-- toggleDarkMode: flip the flag; compute the base name by stripping the
reserved suffix from the current preset (falling back to the hardcoded name
"space" when there is no current preset or the stripped name is empty);
apply the counterpart preset when it exists, otherwise leave the theme and
the current preset unchanged.  The isDarkMode test reads the pre-toggle
value, as the source closure does. -/
def toggleDarkMode (st : ThemeState) : ThemeState :=
  let currentBasePreset := jsOrS (st.currentPreset.map stripLight) "space"
  if st.isDarkMode = false then
    let lightPresetName := currentBasePreset ++ "-light"
    match presetLookup st.theme lightPresetName with
    | some _ =>
        { theme := applyPreset st.theme lightPresetName
          currentPreset := some lightPresetName
          isDarkMode := true }
    | none => { st with isDarkMode := true }
  else
    match presetLookup st.theme currentBasePreset with
    | some _ =>
        { theme := applyPreset st.theme currentBasePreset
          currentPreset := some currentBasePreset
          isDarkMode := false }
    | none => { st with isDarkMode := false }

/-! ## Dynamic theme detection (src/theme/hooks.ts, getDynamicThemeInfo) -/

structure ThemeInfo where
  baseThemes : List String
  colorVariants : List (String × Smap)
deriving DecidableEq

/-- The forEach over Object.keys(presets): collect de-duplicated base names
(first occurrence wins) and, for each preset whose colors field is truthy,
one colorVariants entry carrying its colors unmodified. -/
def detectLoop : List (String × ThemePreset) → List String → List (String × Smap) → ThemeInfo
  | [], baseThemes, colorVariants => ⟨baseThemes, colorVariants⟩
  | (presetName, preset) :: rest, baseThemes, colorVariants =>
      let baseTheme := stripLight presetName
      let baseThemes1 := if baseThemes.contains baseTheme then baseThemes else baseThemes ++ [baseTheme]
      let colorVariants1 :=
        match preset.colors with
        | some colors => colorVariants ++ [(presetName, colors)]
        | none => colorVariants
      detectLoop rest baseThemes1 colorVariants1

/-- getDynamicThemeInfo of useDynamicThemeDetection. -/
def getDynamicThemeInfo (theme : Theme) : ThemeInfo :=
  match theme.presets with
  | none => ⟨[], []⟩
  | some presets =>
      if presets.length > 0 then detectLoop presets [] [] else ⟨[], []⟩

/-! ## Dynamic content detection (src/content/hooks.ts, getDynamicContentInfo) -/

structure ContentInfo where
  availableLanguages : List String
  contentSections : List String
  contentStyles : List String
deriving DecidableEq

/-- The test key.length === 2 && /^[a-z]\x7b2\x7d$/.test(key). -/
def isLangKey (k : String) : Bool :=
  k.length == 2 && k.data.all (fun c => decide ('a' ≤ c) && decide (c ≤ 'z'))

/-- typeof v === 'object' && v !== null (arrays are objects; null is the
one object-typed value excluded by the null check). -/
def jsObjNonNull : Jval → Bool
  | Jval.vObj _ => true
  | Jval.vArr _ => true
  | _ => false

/-- Object.keys of an arbitrary value (index keys for arrays and strings,
empty for the other primitives). -/
def objKeysOf : Jval → List String
  | Jval.vObj f => f.map Prod.fst
  | Jval.vArr l => (List.range l.length).map (fun i => Nat.repr i)
  | Jval.vStr s => (List.range s.length).map (fun i => Nat.repr i)
  | _ => []

/-- The language keys the single pass pushes: top-level keys matching the
two-letter lowercase test, in document order. -/
def detectedLangKeys (content : Jobj) : List String :=
  (content.filter (fun kv => isLangKey kv.1)).map Prod.fst

/-- The section keys the single pass pushes: non-language keys whose value
is object-typed and non-null, in document order. -/
def detectedSectionKeys (content : Jobj) : List String :=
  (content.filter (fun kv => !isLangKey kv.1 && jsObjNonNull kv.2)).map Prod.fst

/-- getDynamicContentInfo of useDynamicContentDetection: classify each
top-level key in one pass (2-letter lowercase keys are languages, other
object-valued keys are content sections), fall back to the current language
when no language key was found and the current language is truthy, and read
content styles from the keys of a truthy styles property. -/
def getDynamicContentInfo (content : Jobj) (language : String) : ContentInfo :=
  let availableLanguages := detectedLangKeys content
  let contentSections := detectedSectionKeys content
  let availableLanguages :=
    if availableLanguages.isEmpty ∧ language ≠ "" then [language] else availableLanguages
  let contentStyles :=
    match alookup content "styles" with
    | some v => if jsTruthy v then objKeysOf v else []
    | none => []
  ⟨availableLanguages, contentSections, contentStyles⟩

/-! ## Content store (src/content/content.ts and ContentProvider.tsx) -/

/-- Caller-supplied Partial of ContentOptions (absent fields are none). -/
structure ContentOptionsP where
  defaultLanguage : Option String
  supportedLanguages : Option (List String)
  format : Option String
  baseUrl : Option String
  cacheDuration : Option Nat
deriving DecidableEq

def emptyContentOptions : ContentOptionsP :=
  { defaultLanguage := none, supportedLanguages := none, format := none
    baseUrl := none, cacheDuration := none }

def DEFAULT_CONTENT_OPTIONS : ContentOptionsP :=
  { defaultLanguage := some "en", supportedLanguages := none, format := some "json"
    baseUrl := none, cacheDuration := some 3600000 }

/-- JavaScript a present-field override for object spread of options. -/
def optOr {α : Type} : Option α → Option α → Option α
  | some a, _ => some a
  | none, b => b

/-- The mergedOptions spread of DEFAULT_CONTENT_OPTIONS and the provided
options: a field present in the provided options overrides the default. -/
def mergeOptions (defaults opts : ContentOptionsP) : ContentOptionsP :=
  { defaultLanguage := optOr opts.defaultLanguage defaults.defaultLanguage
    supportedLanguages := optOr opts.supportedLanguages defaults.supportedLanguages
    format := optOr opts.format defaults.format
    baseUrl := optOr opts.baseUrl defaults.baseUrl
    cacheDuration := optOr opts.cacheDuration defaults.cacheDuration }

structure ContentStyleData where
  id : String
  name : String
  description : String
  icon : Option String
  layout : Option String
  sections : Option (List String)
  metadata : Option Jobj

structure ContentStylePresetL where
  id : String
  name : String
  description : String
  icon : Option String
  styles : ContentStyleData

/-- The built-in content styles (default / marketing / portfolio /
business), transcribed from DEFAULT_CONTENT_STYLES. -/
def DEFAULT_CONTENT_STYLES : List ContentStylePresetL :=
  [ { id := "default", name := "Default"
      description := "Standard website content and layout"
      icon := some "layout"
      styles :=
        { id := "default", name := "Default"
          description := "Standard website content and layout"
          icon := none, layout := some "standard"
          sections := some ["header", "main", "footer"], metadata := none } }
  , { id := "marketing", name := "Marketing Focus"
      description := "Content optimized for conversions"
      icon := some "file-text"
      styles :=
        { id := "marketing", name := "Marketing Focus"
          description := "Content optimized for conversions"
          icon := none, layout := some "marketing"
          sections := some ["hero", "features", "cta", "testimonials"], metadata := none } }
  , { id := "portfolio", name := "Portfolio Style"
      description := "Showcase-focused content layout"
      icon := some "image"
      styles :=
        { id := "portfolio", name := "Portfolio Style"
          description := "Showcase-focused content layout"
          icon := none, layout := some "portfolio"
          sections := some ["gallery", "about", "contact"], metadata := none } }
  , { id := "business", name := "Business Focus"
      description := "Professional business content"
      icon := some "briefcase"
      styles :=
        { id := "business", name := "Business Focus"
          description := "Professional business content"
          icon := none, layout := some "business"
          sections := some ["services", "team", "clients", "contact"], metadata := none } } ]

/-- ContentProvider construction parameters that bear on content styles. -/
structure ContentProviderConfig where
  initialLanguage : String
  initialContentStyle : String
  customContentStyles : List ContentStylePresetL
  options : ContentOptionsP

/-- availableContentStyles = [...DEFAULT_CONTENT_STYLES, ...custom]. -/
def availableContentStyles (cfg : ContentProviderConfig) : List ContentStylePresetL :=
  DEFAULT_CONTENT_STYLES ++ cfg.customContentStyles

/-- validateContentStyle: some style in the list has the requested id. -/
def validateContentStyle (styleId : String) (styles : List ContentStylePresetL) : Bool :=
  styles.any (fun style => style.id = styleId)

/-- handleSetContentStyle: accept the id only when it validates against the
combined style list, otherwise warn and leave the state unchanged. -/
def handleSetContentStyle (cfg : ContentProviderConfig) (current styleId : String) : String :=
  if validateContentStyle styleId (availableContentStyles cfg) then styleId else current

/-- handleResetContentStyleToDefault: writes
mergedOptions.defaultLanguage || 'default' with no validation. -/
def handleResetContentStyleToDefault (cfg : ContentProviderConfig) : String :=
  jsOrS (mergeOptions DEFAULT_CONTENT_OPTIONS cfg.options).defaultLanguage "default"

/-! ## Smart Content Loader (src/content/SmartContentLoader.ts)

Configuration, environment and state.  Wall-clock instrumentation that the
source derives from performance.now (per-response loadTime, average load
time) and its placeholder float statistics are real-time measurements with
no effect on control flow and are not modelled; every branch condition of
the source is. -/

structure SecurityConfig where
  antiScraping : Bool
  rateLimiting : Bool
  contentObfuscation : Bool
  watermarking : Bool
deriving DecidableEq

structure SmartConfig where
  extendExisting : Bool
  enhanceSEO : Bool
  autoOptimize : Bool
  networkOptimization : Bool
  publicPath : Option String
  privatePath : Option String
  security : SecurityConfig
deriving DecidableEq

/-- The constructor defaults (the smart defaults spread, with no caller
overrides). -/
def defaultSmartConfig : SmartConfig :=
  { extendExisting := true, enhanceSEO := true, autoOptimize := true
    networkOptimization := true, publicPath := none, privatePath := none
    security :=
      { antiScraping := true, rateLimiting := true
        contentObfuscation := true, watermarking := true } }

/-- Outcome of one fetch call: a delivered response (status, optional
content-length header, and a body that either parses as a JSON object or
fails to parse), or a rejected fetch. -/
inductive FetchRes where
  | resp (status : Nat) (contentLength : Option Nat) (body : Except Unit Jobj)
  | netErr

/-- response.ok. -/
def statusOk (status : Nat) : Bool :=
  decide (200 ≤ status) && decide (status ≤ 299)

/-- The environment of one loadContent call: the browser user agent (none
when navigator is undefined), the outcome each URL would fetch to, the two
probe durations measured by performance.now, the Date.now clock, and the two
Math.random draws (rate-limit client id, watermark session id). -/
structure LoaderEnv where
  userAgent : Option String
  fetch : String → FetchRes
  pingElapsedMs : Nat
  testFileElapsedMs : Nat
  nowMs : Nat
  randomId : String
  randomSession : String

structure CacheEntry where
  data : Jobj
  timestamp : Nat
  etag : String

structure RateEntry where
  count : Nat
  lastRequest : Nat
deriving DecidableEq

structure NetRecord where
  timestamp : Nat
  quality : String
  latency : Nat
deriving DecidableEq

/-- Loader instance state, plus the fetch-call counter the specification
uses as its observable (number of fetch calls issued so far). -/
structure LoaderState where
  fetchCount : Nat
  cache : List (String × CacheEntry)
  requestHistory : List (String × RateEntry)
  networkHistory : List NetRecord
  loadQualities : List String

def emptyLoaderState : LoaderState :=
  { fetchCount := 0, cache := [], requestHistory := []
    networkHistory := [], loadQualities := [] }

/-- Throwable errors of the loader pipeline. -/
inductive LoadErr where
  | accessDenied
  | rateLimited
  | authRequired
  | authFailed
  | forbidden
  | publicFetchFailed (status : Nat)
  | privateFetchFailed (status : Nat)
  | network
  | jsonParse
  | noProvider
deriving DecidableEq

/-- Issue a fetch call: record it on the counter and look up the outcome. -/
def bumpFetch (st : LoaderState) : LoaderState :=
  { st with fetchCount := st.fetchCount + 1 }

def fetchUrl (env : LoaderEnv) (url : String) (st : LoaderState) : FetchRes × LoaderState :=
  (env.fetch url, bumpFetch st)

/-! ### NetworkMonitor -/

/-- measureLatency: a HEAD fetch of /ping timed with performance.now; a
rejected fetch is caught and reported as 1000. -/
def measureLatency (env : LoaderEnv) (st : LoaderState) : Nat × LoaderState :=
  match fetchUrl env "/ping" st with
  | (FetchRes.netErr, st1) => (1000, st1)
  | (FetchRes.resp _ _ _, st1) => (env.pingElapsedMs, st1)

/-- measureBandwidth: fetch /test-file.txt and divide the content-length
header by the elapsed seconds; errors and a missing header both yield the
default 100000.  The source divides floating-point milliseconds; natural
division stands in for it (the claims depend only on the tier
thresholds). -/
def measureBandwidth (env : LoaderEnv) (st : LoaderState) : Nat × LoaderState :=
  match fetchUrl env "/test-file.txt" st with
  | (FetchRes.netErr, st1) => (100000, st1)
  | (FetchRes.resp _ contentLength _, st1) =>
      match contentLength with
      | some size => (size * 1000 / env.testFileElapsedMs, st1)
      | none => (100000, st1)

def recordNetworkQuality (env : LoaderEnv) (quality : String) (latency : Nat)
    (st : LoaderState) : LoaderState :=
  let hist := st.networkHistory ++ [⟨env.nowMs, quality, latency⟩]
  let hist := if hist.length > 100 then hist.drop 1 else hist
  { st with networkHistory := hist }

/-- assessNetworkQuality: probe latency and bandwidth, then threshold. -/
def assessNetworkQuality (env : LoaderEnv) (st : LoaderState) : String × LoaderState :=
  let r1 := measureLatency env st
  let r2 := measureBandwidth env r1.2
  let quality :=
    if r1.1 < 100 ∧ r2.1 > 1000000 then "excellent"
    else if r1.1 < 300 ∧ r2.1 > 100000 then "good"
    else "poor"
  (quality, recordNetworkQuality env quality r1.1 r2.2)

/-! ### SecurityManager -/

def suspiciousTerms : List String :=
  ["headless", "phantomjs", "selenium", "bot", "crawler"]

/-- checkForScraping: throw Access denied when the lowercased user agent
contains a denylist term (skipped when navigator is undefined). -/
def checkForScraping (env : LoaderEnv) : Except LoadErr Unit :=
  match env.userAgent with
  | none => Except.ok ()
  | some ua =>
      let userAgent := strToLower ua
      if suspiciousTerms.any (fun term => strIncludes userAgent term) then
        Except.error LoadErr.accessDenied
      else Except.ok ()

/-- checkRateLimit: fixed window of 10 requests per 60s, keyed by the
per-call Math.random client id. -/
def checkRateLimit (env : LoaderEnv) (st : LoaderState) :
    Except LoadErr Unit × LoaderState :=
  let clientId := env.randomId
  let now := env.nowMs
  let minuteAgo := now - 60000
  match alookup st.requestHistory clientId with
  | none =>
      (Except.ok (), { st with requestHistory := aset st.requestHistory clientId ⟨1, now⟩ })
  | some history =>
      if history.lastRequest < minuteAgo then
        (Except.ok (), { st with requestHistory := aset st.requestHistory clientId ⟨1, now⟩ })
      else if history.count ≥ 10 then
        (Except.error LoadErr.rateLimited, st)
      else
        (Except.ok (),
         { st with requestHistory := aset st.requestHistory clientId ⟨history.count + 1, now⟩ })

/-- validateRequest: rate limit first, then the scraping denylist, each
gated by its config flag. -/
def validateRequest (env : LoaderEnv) (cfg : SmartConfig) (st : LoaderState) :
    Except LoadErr Unit × LoaderState :=
  let r1 :=
    if cfg.security.rateLimiting then checkRateLimit env st else (Except.ok (), st)
  match r1 with
  | (Except.error e, st1) => (Except.error e, st1)
  | (Except.ok _, st1) =>
      if cfg.security.antiScraping then (checkForScraping env, st1)
      else (Except.ok (), st1)

/-- getSecurityLevel: count of enabled security features. -/
def secEnabledCount (sec : SecurityConfig) : Nat :=
  (if sec.antiScraping then 1 else 0) + (if sec.rateLimiting then 1 else 0)
    + (if sec.contentObfuscation then 1 else 0) + (if sec.watermarking then 1 else 0)

def getSecurityLevel (sec : SecurityConfig) : String :=
  if secEnabledCount sec ≥ 3 then "high"
  else if secEnabledCount sec ≥ 2 then "medium"
  else "low"

/-- obfuscateContent: the forEach over Object.keys assigns the value of the
i-th key to property k(i) of an initially empty object. -/
def obfuscateContent (content : Jobj) : Jobj :=
  (List.enum content).foldl
    (fun obfuscated p => aset obfuscated ("k" ++ Nat.repr p.1) p.2.2) []

/-- addWatermark: spread plus a _watermark property carrying Date.now and a
Math.random session id. -/
def addWatermark (env : LoaderEnv) (content : Jobj) : Jobj :=
  aset content "_watermark"
    (Jval.vObj [("timestamp", Jval.vNum (Int.ofNat env.nowMs)),
                ("sessionId", Jval.vStr env.randomSession)])

/-- secureContent: obfuscate then watermark, each gated by its flag. -/
def secureContent (env : LoaderEnv) (cfg : SmartConfig) (content : Jobj) : Jobj :=
  let c := if cfg.security.contentObfuscation then obfuscateContent content else content
  if cfg.security.watermarking then addWatermark env c else c

/-! ### SEOOptimizer -/

def generateStructuredData (content : Jobj) : Jval :=
  Jval.vObj
    [ ("@context", Jval.vStr "https://schema.org")
    , ("@type", Jval.vStr "Organization")
    , ("name", jsOrV (alookup content "title") (Jval.vStr "Company Name"))
    , ("description", jsOrV (alookup content "description") (Jval.vStr ""))
    , ("url", jsOrV (alookup content "url") (Jval.vStr ""))
    , ("sameAs", jsOrV (alookup content "socialLinks") (Jval.vArr [])) ]

def generateMetaTags (content : Jobj) : Jval :=
  Jval.vObj
    [ ("title", jsOrV (alookup content "title") (Jval.vStr "Default Title"))
    , ("description", jsOrV (alookup content "description") (Jval.vStr "Default description"))
    , ("keywords", jsOrV (alookup content "keywords") (Jval.vArr []))
    , ("robots", Jval.vStr "index, follow") ]

def generateOpenGraph (content : Jobj) : Jval :=
  Jval.vObj
    [ ("og:title", jsOrV (alookup content "title") (Jval.vStr "Default Title"))
    , ("og:description", jsOrV (alookup content "description") (Jval.vStr "Default description"))
    , ("og:type", Jval.vStr "website")
    , ("og:url", jsOrV (alookup content "url") (Jval.vStr ""))
    , ("og:image", jsOrV (alookup content "image") (Jval.vStr "")) ]

/-- enhancePublicContent: assign a _seo property synthesized from the
content fields and return the same object. -/
def enhancePublicContent (content : Jobj) : Jobj :=
  aset content "_seo"
    (Jval.vObj
      [ ("structuredData", generateStructuredData content)
      , ("metaTags", generateMetaTags content)
      , ("openGraph", generateOpenGraph content) ])

def getDefaultSEO : Jval :=
  Jval.vObj
    [ ("structuredData", Jval.vObj [])
    , ("metaTags", Jval.vObj [])
    , ("openGraph", Jval.vObj []) ]

/-! ### Content merging

mergeContent deep-merges private over public: object-typed (non-null)
values recurse through Object.entries with the existing value (or an empty
object when it is falsy) as the base, other values overwrite.  Array values
are object-typed in JavaScript, so recursion turns them into index-keyed
objects. -/

/-- The object spread / Object.entries view of an arbitrary value. -/
def entriesOfVal : Jval → Jobj
  | Jval.vObj f => f
  | Jval.vArr l => (List.enum l).map (fun p => (Nat.repr p.1, p.2))
  | Jval.vStr s => (List.enum s.data).map (fun p => (Nat.repr p.1, Jval.vStr (String.mk [p.2])))
  | _ => []

/-- merged[key] || an empty object. -/
def oldOrEmptyEntries (old : Option Jval) : Jobj :=
  match old with
  | some v => if jsTruthy v then entriesOfVal v else []
  | none => []

mutual

def mergeEntries (merged : Jobj) : Jobj → Jobj
  | [] => merged
  | (k, value) :: rest =>
      mergeEntries (aset merged k (mergeValue (alookup merged k) value)) rest

def mergeArrEntries (merged : Jobj) (i : Nat) : List Jval → Jobj
  | [] => merged
  | v :: rest =>
      mergeArrEntries (aset merged (Nat.repr i) (mergeValue (alookup merged (Nat.repr i)) v)) (i + 1) rest

def mergeValue (old : Option Jval) : Jval → Jval
  | Jval.vObj nf => Jval.vObj (mergeEntries (oldOrEmptyEntries old) nf)
  | Jval.vArr l => Jval.vObj (mergeArrEntries (oldOrEmptyEntries old) 0 l)
  | v => v

end

/-- mergeContent: null private data (no token) returns the public data
unchanged; otherwise private entries are merged over a copy of the public
object. -/
def mergeContent (publicData : Jobj) (privateData : Option Jobj) : Jobj :=
  match privateData with
  | none => publicData
  | some priv => mergeEntries publicData priv

/-! ### Smart cache -/

/-- The TTL chosen for the network quality observed at lookup time. -/
def cacheTimeFor (networkQuality : String) : Nat :=
  if networkQuality = "excellent" then 300000
  else if networkQuality = "good" then 600000
  else if networkQuality = "poor" then 1800000
  else 600000

/-- getSmartCache: a lookup past the quality-tier TTL deletes the entry
(lazy eviction) and misses; otherwise the entry is returned.  Returns the
result together with the possibly updated cache. -/
def getSmartCache (cache : List (String × CacheEntry)) (key networkQuality : String)
    (now : Nat) : Option CacheEntry × List (String × CacheEntry) :=
  match alookup cache key with
  | none => (none, cache)
  | some cached =>
      if now - cached.timestamp > cacheTimeFor networkQuality then
        (none, adelete cache key)
      else (some cached, cache)

/-! ### generateETag (JSON.stringify, the shift-hash, base-36) -/

def jsonEscapeChar (c : Char) : List Char :=
  if c = '"' ∨ c = '\\' then ['\\', c] else [c]

def jsonEscape (s : String) : String :=
  String.mk (s.data.foldr (fun c acc => jsonEscapeChar c ++ acc) [])

def lbraceChar : Char := Char.ofNat 123

def rbraceChar : Char := Char.ofNat 125

mutual

def jsonStringify : Jval → String
  | Jval.vStr s => "\"" ++ jsonEscape s ++ "\""
  | Jval.vNum n => toString n
  | Jval.vBool b => if b then "true" else "false"
  | Jval.vNull => "null"
  | Jval.vObj fields => String.mk [lbraceChar] ++ jsonStringifyFields fields ++ String.mk [rbraceChar]
  | Jval.vArr elems => "[" ++ jsonStringifyElems elems ++ "]"

def jsonStringifyFields : Jobj → String
  | [] => ""
  | [(k, v)] => "\"" ++ jsonEscape k ++ "\":" ++ jsonStringify v
  | (k, v) :: rest =>
      "\"" ++ jsonEscape k ++ "\":" ++ jsonStringify v ++ "," ++ jsonStringifyFields rest

def jsonStringifyElems : List Jval → String
  | [] => ""
  | [v] => jsonStringify v
  | v :: rest => jsonStringify v ++ "," ++ jsonStringifyElems rest

end

/-- ToInt32 coercion (the effect of hash & hash on a JavaScript number). -/
def toInt32 (x : Int) : Int :=
  let m := x % 4294967296
  if m < 2147483648 then m else m - 4294967296

/-- One step of the ETag hash: hash = ((hash << 5) - hash) + charCode,
coerced back to a 32-bit integer.  The shift itself operates on int32. -/
def etagStep (hash : Int) (c : Char) : Int :=
  toInt32 (toInt32 (hash * 32) - hash + Int.ofNat c.toNat)

def base36Digit (n : Nat) : Char :=
  if n < 10 then Char.ofNat (48 + n) else Char.ofNat (87 + n)

def natToBase36Aux (n : Nat) (acc : List Char) : List Char :=
  if h : n < 36 then base36Digit n :: acc
  else natToBase36Aux (n / 36) (base36Digit (n % 36) :: acc)
termination_by n
decreasing_by
  exact Nat.div_lt_self (by omega) (by omega)

/-- Math.abs(hash).toString(36). -/
def natToBase36 (n : Nat) : String :=
  String.mk (natToBase36Aux n [])

def generateETag (data : Jobj) : String :=
  let str := jsonStringify (Jval.vObj data)
  let hash := str.data.foldl etagStep 0
  natToBase36 hash.natAbs

/-- setSmartCache: unconditional write of the entry under the logical
content-type key. -/
def setSmartCache (env : LoaderEnv) (cache : List (String × CacheEntry)) (key : String)
    (data : Jobj) : List (String × CacheEntry) :=
  aset cache key { data := data, timestamp := env.nowMs, etag := generateETag data }

/-- getStaleCache: accept a cached entry regardless of TTL as long as its
absolute age is under one hour. -/
def getStaleCache (cache : List (String × CacheEntry)) (key : String) (now : Nat) :
    Option Jobj :=
  match alookup cache key with
  | none => none
  | some cached => if now - cached.timestamp < 3600000 then some cached.data else none

/-! ### Loading strategies

Async steps are sequentialized in source order (single-threaded event-loop
model); Promise.all in the fast strategy is run public-then-private, which
agrees with the source on every value and error outcome and differs only in
unobserved post-failure probe counts. -/

/-- loadPublicContent: fetch config.publicPath || /content/public.json,
throw on !ok or a JSON parse failure, then apply the SEO enhancement. -/
def loadPublicContent (env : LoaderEnv) (cfg : SmartConfig) (st : LoaderState) :
    Except LoadErr Jobj × LoaderState :=
  match fetchUrl env (jsOrS cfg.publicPath "/content/public.json") st with
  | (FetchRes.netErr, st1) => (Except.error LoadErr.network, st1)
  | (FetchRes.resp status _ body, st1) =>
      if statusOk status then
        match body with
        | Except.ok data => (Except.ok (enhancePublicContent data), st1)
        | Except.error _ => (Except.error LoadErr.jsonParse, st1)
      else (Except.error (LoadErr.publicFetchFailed status), st1)

/-- loadPrivateContent: requires a truthy token, fetches
config.privatePath || /api/private-content, maps 401/403 to dedicated
errors, and applies secureContent to the parsed body. -/
def loadPrivateContent (env : LoaderEnv) (cfg : SmartConfig) (authToken : String)
    (st : LoaderState) : Except LoadErr Jobj × LoaderState :=
  if authToken = "" then (Except.error LoadErr.authRequired, st)
  else
    match fetchUrl env (jsOrS cfg.privatePath "/api/private-content") st with
    | (FetchRes.netErr, st1) => (Except.error LoadErr.network, st1)
    | (FetchRes.resp status _ body, st1) =>
        if statusOk status then
          match body with
          | Except.ok data => (Except.ok (secureContent env cfg data), st1)
          | Except.error _ => (Except.error LoadErr.jsonParse, st1)
        else if status = 401 then (Except.error LoadErr.authFailed, st1)
        else if status = 403 then (Except.error LoadErr.forbidden, st1)
        else (Except.error (LoadErr.privateFetchFailed status), st1)

/-- loadEssentialContent: fetch /content/essential.json, falling back to
the public loader on a delivered non-ok response. -/
def loadEssentialContent (env : LoaderEnv) (cfg : SmartConfig) (st : LoaderState) :
    Except LoadErr Jobj × LoaderState :=
  match fetchUrl env "/content/essential.json" st with
  | (FetchRes.netErr, st1) => (Except.error LoadErr.network, st1)
  | (FetchRes.resp status _ body, st1) =>
      if statusOk status then
        match body with
        | Except.ok data => (Except.ok data, st1)
        | Except.error _ => (Except.error LoadErr.jsonParse, st1)
      else loadPublicContent env cfg st1

/-- loadAdditionalContent: best-effort fetch of /content/additional.json;
every failure inside it is swallowed and yields an empty object. -/
def loadAdditionalContent (env : LoaderEnv) (authToken : Option String)
    (st : LoaderState) : Except LoadErr Jobj × LoaderState :=
  match authToken with
  | none => (Except.ok [], st)
  | some tok =>
      if tok = "" then (Except.ok [], st)
      else
        match fetchUrl env "/content/additional.json" st with
        | (FetchRes.netErr, st1) => (Except.ok [], st1)
        | (FetchRes.resp status _ body, st1) =>
            if statusOk status then
              match body with
              | Except.ok data => (Except.ok data, st1)
              | Except.error _ => (Except.ok [], st1)
            else (Except.ok [], st1)

/-- loadContentFast (excellent network): public and private together, then
merge; a falsy token fetches no private content and merges null. -/
def loadContentFast (env : LoaderEnv) (cfg : SmartConfig) (authToken : Option String)
    (st : LoaderState) : Except LoadErr Jobj × LoaderState :=
  match loadPublicContent env cfg st with
  | (Except.error e, st1) => (Except.error e, st1)
  | (Except.ok publicContent, st1) =>
      match authToken with
      | some tok =>
          if tok = "" then (Except.ok (mergeContent publicContent none), st1)
          else
            match loadPrivateContent env cfg tok st1 with
            | (Except.error e, st2) => (Except.error e, st2)
            | (Except.ok priv, st2) =>
                (Except.ok (mergeContent publicContent (some priv)), st2)
      | none => (Except.ok (mergeContent publicContent none), st1)

/-- loadContentBalanced (good network): public first, then private when a
token is present. -/
def loadContentBalanced (env : LoaderEnv) (cfg : SmartConfig) (authToken : Option String)
    (st : LoaderState) : Except LoadErr Jobj × LoaderState :=
  match loadPublicContent env cfg st with
  | (Except.error e, st1) => (Except.error e, st1)
  | (Except.ok publicContent, st1) =>
      match authToken with
      | some tok =>
          if tok = "" then (Except.ok publicContent, st1)
          else
            match loadPrivateContent env cfg tok st1 with
            | (Except.error e, st2) => (Except.error e, st2)
            | (Except.ok priv, st2) =>
                (Except.ok (mergeContent publicContent (some priv)), st2)
      | none => (Except.ok publicContent, st1)

/-- loadContentProgressive (poor network): essential first, then the
best-effort additional payload, merged over it. -/
def loadContentProgressive (env : LoaderEnv) (cfg : SmartConfig) (authToken : Option String)
    (st : LoaderState) : Except LoadErr Jobj × LoaderState :=
  match loadEssentialContent env cfg st with
  | (Except.error e, st1) => (Except.error e, st1)
  | (Except.ok essential, st1) =>
      match loadAdditionalContent env authToken st1 with
      | (Except.error e, st2) => (Except.error e, st2)
      | (Except.ok additional, st2) =>
          (Except.ok (mergeContent essential (some additional)), st2)

/-- loadContentIntelligently: pick the strategy purely from the network
quality tier. -/
def loadContentIntelligently (env : LoaderEnv) (cfg : SmartConfig)
    (contentType : String) (authToken : Option String) (networkQuality : String)
    (st : LoaderState) : Except LoadErr Jobj × LoaderState :=
  if networkQuality = "excellent" then loadContentFast env cfg authToken st
  else if networkQuality = "good" then loadContentBalanced env cfg authToken st
  else loadContentProgressive env cfg authToken st

/-- enhanceContentWithSmartFeatures applied by the existing-provider path. -/
def enhanceContentWithSmartFeatures (env : LoaderEnv) (cfg : SmartConfig)
    (content : Jobj) : Jobj :=
  let enhanced := content
  let enhanced := if cfg.enhanceSEO then enhancePublicContent enhanced else enhanced
  let enhanced :=
    if cfg.security.contentObfuscation then secureContent env cfg enhanced else enhanced
  enhanced

/-- loadFromExistingProvider: throws when no provider is attached, else
enhances the provider content (modelled as the object the provider holds). -/
def loadFromExistingProvider (env : LoaderEnv) (cfg : SmartConfig)
    (provider : Option Jobj) : Except LoadErr Jobj :=
  match provider with
  | none => Except.error LoadErr.noProvider
  | some content => Except.ok (enhanceContentWithSmartFeatures env cfg content)

/-! ### Response creation, the main pipeline, and the fallback chain -/

/-- The observable fields of a ContentResponse (loadTime and the
placeholder performance floats are wall-clock instrumentation, see the
section comment). -/
structure ContentResponse where
  data : Jobj
  cacheStatus : String
  networkQuality : String
  seoOptimized : Bool
  securityLevel : String
  seo : Jval
  totalRequests : Nat

/-- createResponse. -/
def createResponse (cfg : SmartConfig) (st : LoaderState) (data : Jobj)
    (cacheStatus networkQuality : String) (seoOptimized : Bool)
    (seoData : Option Jval) : ContentResponse :=
  { data := data
    cacheStatus := cacheStatus
    networkQuality := networkQuality
    seoOptimized := seoOptimized
    securityLevel := getSecurityLevel cfg.security
    seo := jsOrV seoData getDefaultSEO
    totalRequests := st.loadQualities.length }

/-- PerformanceTracker.recordLoad (the paired loadTimes list always has the
same length, so one list carries totalRequests). -/
def recordLoad (networkQuality : String) (st : LoaderState) : LoaderState :=
  let qs := st.loadQualities ++ [networkQuality]
  let qs := if qs.length > 100 then qs.drop 1 else qs
  { st with loadQualities := qs }

/-- The try-block of loadContent: assess the network, run the security
gate, consult the cache, load by strategy (or from the existing provider),
synthesize SEO (which mutates the content object the response, the cache
and the seo field all share), record the load, and cache the result. -/
def loadContentTry (env : LoaderEnv) (cfg : SmartConfig) (contentType : String)
    (authToken : Option String) (useExisting : Bool) (existingProvider : Option Jobj)
    (st : LoaderState) : Except LoadErr ContentResponse × LoaderState :=
  let a := assessNetworkQuality env st
  let networkQuality := a.1
  match validateRequest env cfg a.2 with
  | (Except.error e, st2) => (Except.error e, st2)
  | (Except.ok _, st2) =>
      let g := getSmartCache st2.cache contentType networkQuality env.nowMs
      let st3 := { st2 with cache := g.2 }
      match g.1 with
      | some cached =>
          (Except.ok (createResponse cfg st3 cached.data "hit" networkQuality true none), st3)
      | none =>
          let loaded :=
            if useExisting ∧ existingProvider.isSome then
              (loadFromExistingProvider env cfg existingProvider, st3)
            else
              loadContentIntelligently env cfg
                (if contentType = "existing" then "auto" else contentType)
                authToken networkQuality st3
          match loaded with
          | (Except.error e, st4) => (Except.error e, st4)
          | (Except.ok content, st4) =>
              let enhanced := enhancePublicContent content
              let st5 := recordLoad networkQuality st4
              let st6 := { st5 with cache := setSmartCache env st5.cache contentType enhanced }
              (Except.ok
                (createResponse cfg st6 enhanced "miss" networkQuality true
                  (some (Jval.vObj enhanced))), st6)

/-- loadMinimalContent: every failure inside it is swallowed and yields an
empty object, so it cannot throw. -/
def loadMinimalContent (env : LoaderEnv) (st : LoaderState) :
    Except LoadErr Jobj × LoaderState :=
  match fetchUrl env "/content/minimal.json" st with
  | (FetchRes.netErr, st1) => (Except.ok [], st1)
  | (FetchRes.resp status _ body, st1) =>
      if statusOk status then
        match body with
        | Except.ok data => (Except.ok data, st1)
        | Except.error _ => (Except.ok [], st1)
      else (Except.ok [], st1)

/-- loadFallbackContent: stale cache first (up to one hour of absolute
age), else the minimal payload fetch. -/
def loadFallbackContent (env : LoaderEnv) (contentType : String) (st : LoaderState) :
    Except LoadErr Jobj × LoaderState :=
  match getStaleCache st.cache contentType env.nowMs with
  | some d => (Except.ok d, st)
  | none => loadMinimalContent env st

/-- handleError: run the fallback chain; if even it threw, resolve with an
empty object.  It returns a plain response: no exception escapes. -/
def handleError (env : LoaderEnv) (cfg : SmartConfig) (contentType : String)
    (st : LoaderState) : ContentResponse × LoaderState :=
  match loadFallbackContent env contentType st with
  | (Except.ok fallbackContent, st1) =>
      (createResponse cfg st1 fallbackContent "miss" "poor" false none, st1)
  | (Except.error _, st1) =>
      (createResponse cfg st1 [] "miss" "poor" false none, st1)

/-- loadContent: the try-block with every error routed into handleError. -/
def loadContent (env : LoaderEnv) (cfg : SmartConfig) (contentType : String)
    (authToken : Option String) (useExisting : Bool) (existingProvider : Option Jobj)
    (st : LoaderState) : ContentResponse × LoaderState :=
  match loadContentTry env cfg contentType authToken useExisting existingProvider st with
  | (Except.ok r, st1) => (r, st1)
  | (Except.error _, st1) => handleError env cfg contentType st1

/-! ## Association-list lemmas -/

theorem alookup_append {α : Type} (a b : List (String × α)) (k : String) :
    alookup (a ++ b) k =
      match alookup a k with
      | some v => some v
      | none => alookup b k := by
  induction a with
  | nil => simp [alookup]
  | cons kv rest ih =>
      cases kv with
      | mk k1 v1 =>
          by_cases h : k1 = k <;> simp [alookup, h, ih]

theorem alookup_aset_ne {α : Type} (l : List (String × α)) (k k1 : String) (v : α)
    (h : k1 ≠ k) : alookup (aset l k v) k1 = alookup l k1 := by
  induction l with
  | nil => simp [aset, alookup, Ne.symm h]
  | cons kv rest ih =>
      cases kv with
      | mk k2 v2 =>
          by_cases h2 : k2 = k
          · subst h2
            simp [aset, alookup, Ne.symm h]
          · simp [aset, alookup, h2, ih]

theorem alookup_aset_self {α : Type} (l : List (String × α)) (k : String) (v : α) :
    alookup (aset l k v) k = some v := by
  induction l with
  | nil => simp [aset, alookup]
  | cons kv rest ih =>
      cases kv with
      | mk k2 v2 =>
          by_cases h2 : k2 = k <;> simp [aset, alookup, h2, ih]

theorem adelete_cons {α : Type} (k2 : String) (v2 : α) (rest : List (String × α))
    (k : String) :
    adelete ((k2, v2) :: rest) k =
      if k2 = k then adelete rest k else (k2, v2) :: adelete rest k := by
  by_cases h : k2 = k <;> simp [adelete, List.filter_cons, h]

theorem alookup_adelete_ne {α : Type} (l : List (String × α)) (k k1 : String)
    (h : k1 ≠ k) : alookup (adelete l k) k1 = alookup l k1 := by
  induction l with
  | nil => simp [adelete, alookup]
  | cons kv rest ih =>
      cases kv with
      | mk k2 v2 =>
          rw [adelete_cons]
          by_cases h2 : k2 = k
          · subst h2
            simp [alookup, Ne.symm h, ih]
          · simp [alookup, h2, ih]

theorem alookup_adelete_self {α : Type} (l : List (String × α)) (k : String) :
    alookup (adelete l k) k = none := by
  induction l with
  | nil => simp [adelete, alookup]
  | cons kv rest ih =>
      cases kv with
      | mk k2 v2 =>
          rw [adelete_cons]
          by_cases h2 : k2 = k <;> simp [alookup, h2, ih]

theorem alookup_sspread_map (a b : Smap) (k : String) :
    alookup
      (a.map fun kv =>
        match alookup b kv.1 with
        | some v => (kv.1, v)
        | none => kv) k
      = (alookup a k).map
          (fun v =>
            match alookup b k with
            | some w => w
            | none => v) := by
  induction a with
  | nil => simp [alookup]
  | cons kv rest ih =>
      cases kv with
      | mk k1 v1 =>
          by_cases h : k1 = k
          · subst h
            cases hb : alookup b k1 <;> simp [alookup, hb]
          · cases hb : alookup b k1 <;> simp [alookup, h, hb, ih]

theorem alookup_filter_of_none (a b : Smap) (k : String) (h : alookup a k = none) :
    alookup (b.filter fun kv => (alookup a kv.1).isNone) k = alookup b k := by
  induction b with
  | nil => simp
  | cons kv rest ih =>
      cases kv with
      | mk k1 v1 =>
          by_cases hk : k1 = k
          · subst hk
            simp [List.filter, alookup, h, ih]
          · cases ha : (alookup a k1).isNone <;> simp [List.filter, alookup, hk, ih, ha]

theorem alookup_filter_of_some (a b : Smap) (k : String) (h : (alookup a k).isNone = false) :
    alookup (b.filter fun kv => (alookup a kv.1).isNone) k = none := by
  induction b with
  | nil => simp [alookup]
  | cons kv rest ih =>
      cases kv with
      | mk k1 v1 =>
          by_cases hk : k1 = k
          · subst hk
            simp [List.filter, h, ih]
          · cases ha : (alookup a k1).isNone <;> simp [List.filter, alookup, hk, ih, ha]

/-- The object-spread lookup law: a key is read from the override when the
override has it, else from the base. -/
theorem alookup_sspread (a b : Smap) (k : String) :
    alookup (sspread a b) k =
      match alookup b k with
      | some v => some v
      | none => alookup a k := by
  unfold sspread
  rw [alookup_append, alookup_sspread_map]
  cases ha : alookup a k with
  | none =>
      rw [alookup_filter_of_none a b k ha]
      cases hb : alookup b k <;> simp
  | some v =>
      have hfs := alookup_filter_of_some a b k (by simp [ha])
      cases hb : alookup b k <;> simp [hb, hfs]

/-! ## Claim C2: preset application merges over the current resolved theme -/

theorem applyPreset_presets (t : Theme) (n : String) :
    (applyPreset t n).presets = t.presets := by
  unfold applyPreset
  cases h : presetLookup t n <;> rfl

theorem applyPreset_of_some (t : Theme) (n : String) (p : ThemePreset)
    (h : presetLookup t n = some p) :
    applyPreset t n =
      { t with
        colors := sspread t.colors (p.colors.getD [])
        fonts := sspread t.fonts (p.fonts.getD []) } := by
  unfold applyPreset
  rw [h]

/-- Claim C2: applyPreset is a no-op for an unknown preset name, and since
each application merges the preset colors over the current resolved colors
(not the original base), applying preset A and then preset B gives B's
value at every color key both presets override. -/
theorem c2_applyPreset_merge :
    (∀ (t : Theme) (n : String), presetLookup t n = none → applyPreset t n = t) ∧
    (∀ (t : Theme) (a b : String) (pa pb : ThemePreset) (k v : String),
      presetLookup t a = some pa → presetLookup t b = some pb →
      (pcolorsLookup pa k).isSome = true → pcolorsLookup pb k = some v →
      alookup (applyPreset (applyPreset t a) b).colors k = some v) := by
  constructor
  · intro t n h
    simp [applyPreset, h]
  · intro t a b pa pb k v ha hb hpa hpb
    have hb2 : presetLookup (applyPreset t a) b = some pb := by
      unfold presetLookup
      rw [applyPreset_presets]
      exact hb
    cases hcols : pb.colors with
    | none => simp [pcolorsLookup, hcols] at hpb
    | some cs =>
        simp only [pcolorsLookup, hcols] at hpb
        rw [applyPreset_of_some _ _ _ hb2, hcols]
        simp [alookup_sspread, hpb]

def themeC2 : Theme :=
  { colors := [("primary", "#000"), ("secondary", "#111")]
    fonts := []
    presets := some
      [ ("A", { colors := some [("primary", "#a00"), ("accent", "#aa0")], fonts := none, name := none })
      , ("B", { colors := some [("primary", "#b00")], fonts := none, name := none }) ] }

/-- Witness for C2 at a concrete theme: an unknown preset is a no-op, and
applying A then B leaves B's primary. -/
theorem c2_witness :
    applyPreset themeC2 "nope" = themeC2 ∧
    alookup (applyPreset (applyPreset themeC2 "A") "B").colors "primary" = some "#b00" := by
  constructor
  · exact c2_applyPreset_merge.1 themeC2 "nope" (by decide)
  · exact c2_applyPreset_merge.2 themeC2 "A" "B"
      { colors := some [("primary", "#a00"), ("accent", "#aa0")], fonts := none, name := none }
      { colors := some [("primary", "#b00")], fonts := none, name := none }
      "primary" "#b00" (by decide) (by decide) (by decide) (by decide)

/-! ## Claim C3: toggleDarkMode with a missing counterpart preset -/

/-- The counterpart preset name toggleDarkMode computes: the suffix-stripped
base (hardcoded fallback "space"), with the suffix re-added when currently
in dark mode. -/
def toggleTarget (st : ThemeState) : String :=
  let base := jsOrS (st.currentPreset.map stripLight) "space"
  if st.isDarkMode = false then base ++ "-light" else base

def themeC3 : Theme :=
  { colors := [("primary", "#000")]
    fonts := []
    presets := some
      [ ("red", { colors := some [("primary", "#f00")], fonts := none, name := none })
      , ("blue", { colors := some [("primary", "#00f")], fonts := none, name := none }) ] }

def stC3 : ThemeState := { theme := themeC3, currentPreset := some "red", isDarkMode := false }

/-- Counterexample to claim C3: with presets red and blue and current
preset red, the computed counterpart red-light does not exist, and
toggleDarkMode leaves the resolved theme and the current preset completely
unchanged (only the flag flips) instead of falling back to applying any
other preset. -/
theorem c3_counterexample :
    (toggleDarkMode stC3).theme = stC3.theme ∧
    (toggleDarkMode stC3).currentPreset = stC3.currentPreset ∧
    (toggleDarkMode stC3).isDarkMode = true := by
  refine ⟨?_, ?_, ?_⟩ <;> rfl

/-- Claim C3 as amended: toggleDarkMode computes the counterpart name by
adding or stripping the -light suffix (with hardcoded fallback base
"space"), applies it when it exists, and otherwise leaves the resolved
theme and current preset unchanged, flipping only the dark-mode flag; there
is no fallback to a first matching preset. -/
theorem c3_amended (st : ThemeState) :
    (presetLookup st.theme (toggleTarget st) = none →
      toggleDarkMode st = { st with isDarkMode := !st.isDarkMode }) ∧
    (∀ p, presetLookup st.theme (toggleTarget st) = some p →
      toggleDarkMode st =
        { theme := applyPreset st.theme (toggleTarget st)
          currentPreset := some (toggleTarget st)
          isDarkMode := !st.isDarkMode }) := by
  constructor
  · intro h
    cases hm : st.isDarkMode <;>
      · simp [toggleTarget, hm] at h
        simp [toggleDarkMode, hm, h]
  · intro p h
    cases hm : st.isDarkMode <;>
      · simp [toggleTarget, hm] at h
        simp [toggleDarkMode, toggleTarget, hm, h]

/-- Witness for the amended C3 at the concrete state. -/
theorem c3_witness :
    toggleDarkMode stC3 = { stC3 with isDarkMode := !stC3.isDarkMode } :=
  (c3_amended stC3).1 (by decide)

/-! ## Claim C8: theme load failures resolve to the built-in fallback -/

/-- Claim C8: whenever the fetch or the JSON parse of a theme path fails,
loadTheme resolves with the built-in fallback document, whose colors
mapping holds exactly the keys primary, background and foreground. -/
theorem c8_loadTheme_fallback (env : String → TFetch) (path : String)
    (hfail : ∀ t, env path ≠ TFetch.ok t) :
    loadTheme env path = fallbackTheme ∧
    fallbackTheme.colors.map Prod.fst = ["primary", "background", "foreground"] := by
  constructor
  · cases henv : env path with
    | ok t => exact absurd henv (hfail t)
    | badJson => simp [loadTheme, loadThemeTry, henv]
    | httpErr s => simp [loadTheme, loadThemeTry, henv]
    | netErr => simp [loadTheme, loadThemeTry, henv]
  · rfl

def envThemeUnreachable : String → TFetch := fun _ => TFetch.netErr

/-- Witness for C8: an unreachable path yields the fallback theme. -/
theorem c8_witness :
    loadTheme envThemeUnreachable "/content/theme.json" = fallbackTheme ∧
    fallbackTheme.colors.map Prod.fst = ["primary", "background", "foreground"] :=
  c8_loadTheme_fallback envThemeUnreachable "/content/theme.json"
    (fun t h => TFetch.noConfusion h)

/-! ## Claim C9: the content-style invariant and the reset slip -/

def cfgC9 : ContentProviderConfig :=
  { initialLanguage := "en", initialContentStyle := "default"
    customContentStyles := [], options := emptyContentOptions }

/-- Claim C9: setContentStyle does validate (an invalid id is a no-op, as
the claim says), but resetContentStyleToDefault writes
mergedOptions.defaultLanguage || 'default' with no validation; under the
default options this is the language code en, which is not an id of the
combined style list, so the claimed invariant over every reachable state is
violated by the reset mutator. -/
theorem c9_reset_breaks_style_invariant :
    (∀ (cfg : ContentProviderConfig) (current styleId : String),
      validateContentStyle styleId (availableContentStyles cfg) = false →
      handleSetContentStyle cfg current styleId = current) ∧
    handleSetContentStyle cfgC9 "default" "doesnotexist" = "default" ∧
    handleResetContentStyleToDefault cfgC9 = "en" ∧
    validateContentStyle "en" (availableContentStyles cfgC9) = false := by
  refine ⟨?_, ?_, ?_, ?_⟩
  · intro cfg current styleId h
    simp [handleSetContentStyle, h]
  · decide
  · rfl
  · decide

/-- Witness for C9's validated-setter conjunct at a concrete input. -/
theorem c9_witness : handleSetContentStyle cfgC9 "portfolio" "doesnotexist" = "portfolio" :=
  c9_reset_breaks_style_invariant.1 cfgC9 "portfolio" "doesnotexist" (by decide)

/-! ## Claim C5: smart-cache TTL tiers and lazy eviction -/

def entryC5 : CacheEntry :=
  { data := [("title", Jval.vStr "cached")], timestamp := 0, etag := "t" }

def cacheC5 : List (String × CacheEntry) := [("public", entryC5)]

/-- Claim C5: the TTL table is 5/10/30 minutes for excellent/good/poor; a
present entry is a hit exactly when its age is within the TTL of the
quality observed at lookup; an expired lookup deletes just that entry
(lazy eviction) and no cache operation touches any other key; concretely,
an entry aged 25 minutes hits under poor, aged 31 minutes misses under poor
and is deleted, and aged 6 minutes misses under excellent. -/
theorem c5_cache_ttl :
    (cacheTimeFor "excellent" = 300000 ∧ cacheTimeFor "good" = 600000 ∧
      cacheTimeFor "poor" = 1800000) ∧
    (∀ (cache : List (String × CacheEntry)) (key q : String) (now : Nat) (e : CacheEntry),
      alookup cache key = some e →
      ((getSmartCache cache key q now).1 = some e ↔ now - e.timestamp ≤ cacheTimeFor q)) ∧
    (∀ (cache : List (String × CacheEntry)) (key q : String) (now : Nat) (e : CacheEntry),
      alookup cache key = some e → now - e.timestamp > cacheTimeFor q →
      (getSmartCache cache key q now).1 = none ∧
      alookup (getSmartCache cache key q now).2 key = none) ∧
    (∀ (cache : List (String × CacheEntry)) (key q : String) (now : Nat) (k1 : String),
      k1 ≠ key → alookup (getSmartCache cache key q now).2 k1 = alookup cache k1) ∧
    (∀ (env : LoaderEnv) (cache : List (String × CacheEntry)) (key : String) (data : Jobj)
      (k1 : String), k1 ≠ key →
      alookup (setSmartCache env cache key data) k1 = alookup cache k1) ∧
    ((getSmartCache cacheC5 "public" "poor" 1500000).1 = some entryC5 ∧
      (getSmartCache cacheC5 "public" "poor" 1860000).1 = none ∧
      alookup (getSmartCache cacheC5 "public" "poor" 1860000).2 "public" = none ∧
      (getSmartCache cacheC5 "public" "excellent" 360000).1 = none) := by
  refine ⟨⟨rfl, rfl, rfl⟩, ?_, ?_, ?_, ?_, ⟨rfl, rfl, rfl, rfl⟩⟩
  · intro cache key q now e h
    unfold getSmartCache
    rw [h]
    by_cases hexp : now - e.timestamp > cacheTimeFor q
    · simp [hexp]
      omega
    · simp [hexp]
      omega
  · intro cache key q now e h hexp
    unfold getSmartCache
    rw [h]
    simp [hexp, alookup_adelete_self]
  · intro cache key q now k1 hne
    unfold getSmartCache
    cases h : alookup cache key with
    | none => rfl
    | some e =>
        by_cases hexp : now - e.timestamp > cacheTimeFor q <;>
          simp [hexp, alookup_adelete_ne _ _ _ hne]
  · intro env cache key data k1 hne
    exact alookup_aset_ne _ _ _ _ hne

/-- Witness for C5's hit-iff-within-TTL law at the exact good-tier
boundary. -/
theorem c5_witness : (getSmartCache cacheC5 "public" "good" 600000).1 = some entryC5 :=
  (c5_cache_ttl.2.1 cacheC5 "public" "good" 600000 entryC5 rfl).mpr (by decide)

/-! ## Claim C6: one-pass content classification -/

/-- In a JavaScript object the keys are unique; under that invariant the
value at a key is determined. -/
theorem value_of_nodup_keys {α : Type} (l : List (String × α))
    (h : (l.map Prod.fst).Nodup) (k : String) (v v1 : α)
    (hv : (k, v) ∈ l) (hv1 : (k, v1) ∈ l) : v = v1 := by
  induction l with
  | nil => cases hv
  | cons kv rest ih =>
      simp only [List.map_cons, List.nodup_cons] at h
      cases hv with
      | head =>
          cases hv1 with
          | head => rfl
          | tail _ hmem1 =>
              exact absurd (List.mem_map_of_mem Prod.fst hmem1) h.1
      | tail _ hmem =>
          cases hv1 with
          | head => exact absurd (List.mem_map_of_mem Prod.fst hmem) h.1
          | tail _ hmem1 => exact ih h.2 hmem hmem1

theorem mem_detectedLangKeys (content : Jobj) (k : String) :
    k ∈ detectedLangKeys content ↔ (∃ v, (k, v) ∈ content) ∧ isLangKey k = true := by
  simp only [detectedLangKeys, List.mem_map, List.mem_filter]
  constructor
  · rintro ⟨⟨k1, v⟩, ⟨hmem, hlang⟩, rfl⟩
    exact ⟨⟨v, hmem⟩, hlang⟩
  · rintro ⟨⟨v, hmem⟩, hlang⟩
    exact ⟨(k, v), ⟨hmem, hlang⟩, rfl⟩

theorem mem_detectedSectionKeys (content : Jobj) (k : String) :
    k ∈ detectedSectionKeys content ↔
      ∃ v, (k, v) ∈ content ∧ isLangKey k = false ∧ jsObjNonNull v = true := by
  simp only [detectedSectionKeys, List.mem_map, List.mem_filter]
  constructor
  · rintro ⟨⟨k1, v⟩, ⟨hmem, hcond⟩, rfl⟩
    simp only [Bool.and_eq_true, Bool.not_eq_true'] at hcond
    exact ⟨v, hmem, hcond.1, hcond.2⟩
  · rintro ⟨v, hmem, hlang, hobj⟩
    exact ⟨(k, v), ⟨hmem, by simp [hlang, hobj]⟩, rfl⟩

def exContentDoc : Jobj :=
  [ ("en", Jval.vObj []), ("es", Jval.vObj [])
  , ("styles", Jval.vObj [("modern", Jval.vObj [])]), ("notes", Jval.vStr "x") ]

/-- Counterexample to claim C6 as stated: with no language keys detected
and an empty (falsy) current-language string, the fallback is skipped and
availableLanguages is the empty list, not the singleton of the current
language. -/
theorem c6_counterexample :
    (getDynamicContentInfo [] "").availableLanguages = [] ∧
    ([] : List String) ≠ [""] := by
  exact ⟨rfl, by decide⟩

/-- Claim C6 as amended: one pass classifies each top-level key (a
two-letter lowercase key is a language, any other object-valued non-null
key is a content section, any other key lands in neither list); when no
language key is found, availableLanguages falls back to the singleton of
the current language provided that string is non-empty (truthy); styles is
never among the detected language keys; the claim's concrete document
yields availableLanguages = [en, es]. -/
theorem c6_amended (content : Jobj) (language : String)
    (hlang : language ≠ "") (hnodup : (content.map Prod.fst).Nodup) :
    (detectedLangKeys content = [] →
      (getDynamicContentInfo content language).availableLanguages = [language]) ∧
    (detectedLangKeys content ≠ [] →
      (getDynamicContentInfo content language).availableLanguages = detectedLangKeys content) ∧
    (getDynamicContentInfo content language).contentSections = detectedSectionKeys content ∧
    (∀ k v, (k, v) ∈ content → isLangKey k = false → jsObjNonNull v = false →
      k ∉ (getDynamicContentInfo content language).contentSections ∧
      (k ∈ (getDynamicContentInfo content language).availableLanguages → k = language)) ∧
    (∀ k, k ∈ (getDynamicContentInfo content language).availableLanguages →
      isLangKey k = true ∨ k = language) ∧
    "styles" ∉ detectedLangKeys content ∧
    ((getDynamicContentInfo exContentDoc "en").availableLanguages = ["en", "es"] ∧
      (getDynamicContentInfo exContentDoc "en").contentSections = ["styles"]) := by
  have hsections :
      (getDynamicContentInfo content language).contentSections = detectedSectionKeys content := rfl
  have hlangs : (getDynamicContentInfo content language).availableLanguages =
      if detectedLangKeys content = [] then [language] else detectedLangKeys content := by
    simp [getDynamicContentInfo, List.isEmpty_iff, hlang]
  refine ⟨?_, ?_, hsections, ?_, ?_, ?_, by decide, by decide⟩
  · intro h
    rw [hlangs, if_pos h]
  · intro h
    rw [hlangs, if_neg h]
  · intro k v hmem hlangk hobj
    constructor
    · rw [hsections, mem_detectedSectionKeys]
      rintro ⟨v1, hmem1, _, hobj1⟩
      rw [value_of_nodup_keys content hnodup k v v1 hmem hmem1] at hobj
      rw [hobj1] at hobj
      cases hobj
    · rw [hlangs]
      by_cases hdet : detectedLangKeys content = []
      · rw [if_pos hdet]
        intro hk
        simpa using hk
      · rw [if_neg hdet]
        intro hk
        rw [mem_detectedLangKeys] at hk
        rw [hk.2] at hlangk
        cases hlangk
  · intro k hk
    rw [hlangs] at hk
    by_cases hdet : detectedLangKeys content = []
    · rw [if_pos hdet] at hk
      right
      simpa using hk
    · rw [if_neg hdet] at hk
      left
      exact ((mem_detectedLangKeys content k).mp hk).2
  · intro hk
    have := ((mem_detectedLangKeys content "styles").mp hk).2
    exact absurd this (by decide)

/-- Witness for the amended C6 on the claim's concrete document. -/
theorem c6_witness :
    (getDynamicContentInfo exContentDoc "en").availableLanguages = ["en", "es"] :=
  ((c6_amended exContentDoc "en" (by decide) (by decide)).2.1 (by decide)).trans (by decide)

/-! ## Claim C7: theme detection de-duplication and colorVariants -/

def presetNoColors : ThemePreset := { colors := none, fonts := none, name := none }

def themeC7 : Theme :=
  { colors := [("primary", "#000")], fonts := []
    presets := some
      [("green", presetNoColors), ("green-light", presetNoColors), ("blue", presetNoColors)] }

/-- Counterexample to claim C7 as stated: on the claim's own example
presets green, green-light and blue (each without a colors field),
baseThemes is the de-duplicated [green, blue] but colorVariants receives no
entry at all, not one entry per preset key. -/
theorem c7_counterexample :
    (getDynamicThemeInfo themeC7).baseThemes = ["green", "blue"] ∧
    (getDynamicThemeInfo themeC7).colorVariants.length = 0 ∧ (0 : Nat) ≠ 3 := by
  refine ⟨by decide, by decide, by decide⟩

/-- First-seen de-duplication of a list of names. -/
def dedupFirstSeen (l : List String) : List String :=
  l.foldl (fun acc x => if acc.contains x then acc else acc ++ [x]) []

theorem detectLoop_baseThemes (ps : List (String × ThemePreset)) (acc : List String)
    (cvs : List (String × Smap)) :
    (detectLoop ps acc cvs).baseThemes =
      (ps.map (fun p => stripLight p.1)).foldl
        (fun a x => if a.contains x then a else a ++ [x]) acc := by
  induction ps generalizing acc cvs with
  | nil => rfl
  | cons hd tl ih =>
      cases hd with
      | mk n p => cases hcol : p.colors <;> simp [detectLoop, hcol, ih]

theorem detectLoop_colorVariants (ps : List (String × ThemePreset)) (acc : List String)
    (cvs : List (String × Smap)) :
    (detectLoop ps acc cvs).colorVariants =
      cvs ++ ps.filterMap (fun p => p.2.colors.map (fun cs => (p.1, cs))) := by
  induction ps generalizing acc cvs with
  | nil => simp [detectLoop]
  | cons hd tl ih =>
      cases hd with
      | mk n p => cases hcol : p.colors <;> simp [detectLoop, hcol, ih]

theorem dedupFold_nodup (l acc : List String) (hacc : acc.Nodup) :
    (l.foldl (fun a x => if a.contains x then a else a ++ [x]) acc).Nodup := by
  induction l generalizing acc with
  | nil => simpa
  | cons x xs ih =>
      simp only [List.foldl_cons]
      by_cases h : acc.contains x
      · rw [if_pos h]
        exact ih acc hacc
      · rw [if_neg h]
        refine ih (acc ++ [x]) ?_
        have hx : x ∉ acc := by simpa using h
        simp [List.nodup_append, hacc, hx]

theorem dedupFold_mem (l acc : List String) (b : String) :
    b ∈ l.foldl (fun a x => if a.contains x then a else a ++ [x]) acc ↔
      b ∈ acc ∨ b ∈ l := by
  induction l generalizing acc with
  | nil => simp
  | cons x xs ih =>
      simp only [List.foldl_cons]
      by_cases h : acc.contains x
      · rw [if_pos h, ih]
        have hx : x ∈ acc := by simpa using h
        constructor
        · rintro (hb | hb)
          · exact Or.inl hb
          · exact Or.inr (List.mem_cons_of_mem x hb)
        · rintro (hb | hb)
          · exact Or.inl hb
          · rcases List.mem_cons.mp hb with rfl | hb
            · exact Or.inl hx
            · exact Or.inr hb
      · rw [if_neg h, ih]
        simp [or_assoc]

/-- Claim C7 as amended: baseThemes is the first-seen de-duplication of the
preset names with the first -light occurrence removed (nodup, in first-seen
order, membership exactly the stripped names), and colorVariants carries
one entry per preset that has a truthy colors field, with that color set
unmodified; presets without a colors field contribute none, so the claim's
example yields an empty colorVariants. -/
theorem c7_amended (theme : Theme) (presets : List (String × ThemePreset))
    (hp : theme.presets = some presets) :
    (getDynamicThemeInfo theme).baseThemes =
      dedupFirstSeen (presets.map (fun p => stripLight p.1)) ∧
    (getDynamicThemeInfo theme).colorVariants =
      presets.filterMap (fun p => p.2.colors.map (fun cs => (p.1, cs))) ∧
    (getDynamicThemeInfo theme).baseThemes.Nodup ∧
    (∀ b, b ∈ (getDynamicThemeInfo theme).baseThemes ↔
      ∃ p ∈ presets, stripLight p.1 = b) ∧
    ((getDynamicThemeInfo themeC7).baseThemes = ["green", "blue"] ∧
      (getDynamicThemeInfo themeC7).colorVariants = []) := by
  have hinfo : getDynamicThemeInfo theme =
      if presets.length > 0 then detectLoop presets [] [] else ⟨[], []⟩ := by
    unfold getDynamicThemeInfo
    rw [hp]
  cases presets with
  | nil =>
      refine ⟨?_, ?_, ?_, ?_, by decide, by decide⟩ <;> simp [hinfo, dedupFirstSeen]
  | cons hd tl =>
      have hlen : (hd :: tl).length > 0 := by simp
      rw [if_pos hlen] at hinfo
      refine ⟨?_, ?_, ?_, ?_, by decide, by decide⟩
      · rw [hinfo, detectLoop_baseThemes]
        rfl
      · rw [hinfo, detectLoop_colorVariants]
        simp
      · rw [hinfo, detectLoop_baseThemes]
        exact dedupFold_nodup _ [] List.nodup_nil
      · intro b
        rw [hinfo, detectLoop_baseThemes, dedupFold_mem]
        simp only [List.mem_map, List.not_mem_nil, false_or, List.mem_cons, Prod.exists]

/-- Witness for the amended C7 on the claim's example theme. -/
theorem c7_witness :
    (getDynamicThemeInfo themeC7).colorVariants =
      [("green", presetNoColors), ("green-light", presetNoColors),
        ("blue", presetNoColors)].filterMap
        (fun p => p.2.colors.map (fun cs => (p.1, cs))) :=
  (c7_amended themeC7 _ rfl).2.1

/-! ## Claim C10: default-config obfuscation and watermarking

The generated property names k0 .. k(n-1) are pairwise distinct, so the
assignment loop of obfuscateContent only ever appends.  Distinctness needs
injectivity of the decimal numeral, proved by decoding it back. -/

def decodeDec (l : List Char) : Nat :=
  l.foldl (fun a c => a * 10 + (c.toNat - 48)) 0

theorem digitChar_decode : ∀ d : Nat, d < 10 → (Nat.digitChar d).toNat - 48 = d := by
  decide

theorem decodeDec_toDigitsCore (f : Nat) :
    ∀ (n : Nat) (acc : List Char), n < 10 ^ f →
      decodeDec (Nat.toDigitsCore 10 f n acc) =
        acc.foldl (fun a c => a * 10 + (c.toNat - 48)) n := by
  induction f with
  | zero =>
      intro n acc hn
      interval_cases n
      rfl
  | succ f ih =>
      intro n acc hn
      show decodeDec (Nat.toDigitsCore 10 (f + 1) n acc) = _
      rw [Nat.toDigitsCore]
      by_cases hdiv : n / 10 = 0
      · have hn10 : n < 10 := by omega
        simp only [hdiv, if_true]
        show (Nat.digitChar (n % 10) :: acc).foldl (fun a c => a * 10 + (c.toNat - 48)) 0 = _
        simp only [List.foldl_cons]
        rw [Nat.zero_mul, Nat.zero_add, digitChar_decode (n % 10) (Nat.mod_lt n (by omega)),
          Nat.mod_eq_of_lt hn10]
      · simp only [hdiv, if_false]
        have hlt : n / 10 < 10 ^ f := by
          rw [Nat.pow_succ] at hn
          exact Nat.div_lt_of_lt_mul (by omega)
        rw [ih (n / 10) (Nat.digitChar (n % 10) :: acc) hlt]
        simp only [List.foldl_cons]
        rw [digitChar_decode (n % 10) (Nat.mod_lt n (by omega)), Nat.div_add_mod']

theorem decodeDec_repr (n : Nat) : decodeDec (Nat.repr n).data = n := by
  have hlt : n < 10 ^ (n + 1) :=
    lt_of_lt_of_le (Nat.lt_pow_self (by omega) n)
      (Nat.pow_le_pow_right (by omega) (Nat.le_succ n))
  have h := decodeDec_toDigitsCore (n + 1) n [] hlt
  simpa [Nat.repr, Nat.toDigits, List.asString] using h

theorem natRepr_injective : ∀ {m n : Nat}, Nat.repr m = Nat.repr n → m = n := by
  intro m n h
  have := congrArg (fun s => decodeDec (String.data s)) h
  simpa [decodeDec_repr] using this

theorem kname_injective {i j : Nat} (h : "k" ++ Nat.repr i = "k" ++ Nat.repr j) : i = j := by
  have hd := congrArg String.data h
  simp only [String.data_append] at hd
  exact natRepr_injective (by
    apply String.ext
    simpa using hd)

theorem kname_ne_watermark (i : Nat) : "k" ++ Nat.repr i ≠ "_watermark" := by
  intro h
  have hd := congrArg String.data h
  simp only [String.data_append] at hd
  simp at hd

theorem alookup_eq_none_of_keys_ne {α : Type} (l : List (String × α)) (k : String)
    (h : ∀ kv ∈ l, kv.1 ≠ k) : alookup l k = none := by
  induction l with
  | nil => rfl
  | cons kv rest ih =>
      cases kv with
      | mk k1 v1 =>
          have h1 : k1 ≠ k := h (k1, v1) (List.mem_cons_self _ _)
          simp only [alookup, h1, if_false]
          exact ih (fun kv hkv => h kv (List.mem_cons_of_mem _ hkv))

theorem aset_append_of_fresh {α : Type} (l : List (String × α)) (k : String) (v : α)
    (h : alookup l k = none) : aset l k v = l ++ [(k, v)] := by
  induction l with
  | nil => rfl
  | cons kv rest ih =>
      cases kv with
      | mk k1 v1 =>
          by_cases h1 : k1 = k
          · simp [alookup, h1] at h
          · simp only [alookup, h1, if_false] at h
            simp [aset, h1, ih h]

theorem obf_fold_general (l : List (Nat × (String × Jval))) (acc : Jobj)
    (hdisj : ∀ p ∈ l, alookup acc ("k" ++ Nat.repr p.1) = none)
    (hnd : (l.map (fun p => "k" ++ Nat.repr p.1)).Nodup) :
    l.foldl (fun a p => aset a ("k" ++ Nat.repr p.1) p.2.2) acc
      = acc ++ l.map (fun p => ("k" ++ Nat.repr p.1, p.2.2)) := by
  induction l generalizing acc with
  | nil => simp
  | cons p tl ih =>
      simp only [List.foldl_cons, List.map_cons]
      rw [aset_append_of_fresh acc _ _ (hdisj p (List.mem_cons_self _ _))]
      simp only [List.map_cons, List.nodup_cons] at hnd
      rw [ih (acc ++ [("k" ++ Nat.repr p.1, p.2.2)]) ?_ hnd.2]
      · simp
      · intro q hq
        rw [alookup_append, hdisj q (List.mem_cons_of_mem _ hq)]
        apply alookup_eq_none_of_keys_ne
        intro kv2 hkv2
        simp only [List.mem_singleton] at hkv2
        subst hkv2
        intro hk
        refine hnd.1 ?_
        rw [show ("k" ++ Nat.repr p.1) = ("k" ++ Nat.repr q.1) from hk]
        exact List.mem_map_of_mem _ hq

theorem obfuscateContent_eq_map (content : Jobj) :
    obfuscateContent content =
      (List.enum content).map (fun p => ("k" ++ Nat.repr p.1, p.2.2)) := by
  unfold obfuscateContent
  rw [obf_fold_general (List.enum content) [] (fun p _ => rfl) ?_]
  · simp
  · have h1 : (List.enum content).map (fun p => "k" ++ Nat.repr p.1)
        = (List.range content.length).map (fun i => "k" ++ Nat.repr i) := by
      rw [show (fun p : Nat × (String × Jval) => "k" ++ Nat.repr p.1)
          = (fun i : Nat => "k" ++ Nat.repr i) ∘ Prod.fst from rfl]
      rw [← List.map_map, List.enum_map_fst]
    rw [h1]
    exact (List.nodup_range _).map (fun a b h => kname_injective h)

/-- The keys of the obfuscated object are k0 .. k(n-1) in order. -/
theorem obfuscateContent_keys (content : Jobj) :
    (obfuscateContent content).map Prod.fst =
      (List.range content.length).map (fun i => "k" ++ Nat.repr i) := by
  rw [obfuscateContent_eq_map, List.map_map]
  have : (Prod.fst ∘ fun p : Nat × (String × Jval) => ("k" ++ Nat.repr p.1, p.2.2))
      = (fun i : Nat => "k" ++ Nat.repr i) ∘ Prod.fst := rfl
  rw [this, ← List.map_map, List.enum_map_fst]

def envC10 : LoaderEnv :=
  { userAgent := none, fetch := fun _ => FetchRes.netErr, pingElapsedMs := 0
    testFileElapsedMs := 1, nowMs := 5, randomId := "r", randomSession := "s" }

def privDocC10 : Jobj := [("k0", Jval.vStr "secret")]

/-- Counterexample to claim C10 as stated: a private document whose only
top-level key is literally k0 comes back from secureContent still carrying
the original key name k0 (indeed the obfuscation maps it to itself), so it
is not true that no original key name survives. -/
theorem c10_counterexample :
    "k0" ∈ (secureContent envC10 defaultSmartConfig privDocC10).map Prod.fst ∧
    "k0" ∈ privDocC10.map Prod.fst := by
  exact ⟨by decide, by decide⟩

/-- Claim C10 as amended: under the default configuration secureContent
replaces the n top-level entries by keys k0 .. k(n-1) in enumeration order
(values unchanged) and appends the _watermark entry, so the result's key
list is exactly those positional names plus _watermark; consequently an
original key name can survive only by itself being one of the positional
names k(i) with i < n, or the literal _watermark. -/
theorem c10_amended (env : LoaderEnv) (cfg : SmartConfig) (data : Jobj)
    (hobf : cfg.security.contentObfuscation = true)
    (hwm : cfg.security.watermarking = true) :
    secureContent env cfg data =
      (List.enum data).map (fun p => ("k" ++ Nat.repr p.1, p.2.2)) ++
        [("_watermark", Jval.vObj [("timestamp", Jval.vNum (Int.ofNat env.nowMs)),
            ("sessionId", Jval.vStr env.randomSession)])] ∧
    (secureContent env cfg data).map Prod.fst =
      (List.range data.length).map (fun i => "k" ++ Nat.repr i) ++ ["_watermark"] ∧
    (∀ k, k ∈ (secureContent env cfg data).map Prod.fst →
      (∃ i, i < data.length ∧ k = "k" ++ Nat.repr i) ∨ k = "_watermark") := by
  have hsec : secureContent env cfg data = addWatermark env (obfuscateContent data) := by
    unfold secureContent
    rw [hobf, hwm]
    simp
  have hfresh : alookup (obfuscateContent data) "_watermark" = none := by
    apply alookup_eq_none_of_keys_ne
    intro kv hkv
    rw [obfuscateContent_eq_map] at hkv
    rcases List.mem_map.mp hkv with ⟨p, _, rfl⟩
    exact kname_ne_watermark p.1
  have hwmark : secureContent env cfg data =
      obfuscateContent data ++
        [("_watermark", Jval.vObj [("timestamp", Jval.vNum (Int.ofNat env.nowMs)),
            ("sessionId", Jval.vStr env.randomSession)])] := by
    rw [hsec]
    unfold addWatermark
    exact aset_append_of_fresh _ _ _ hfresh
  have hkeys : (secureContent env cfg data).map Prod.fst =
      (List.range data.length).map (fun i => "k" ++ Nat.repr i) ++ ["_watermark"] := by
    rw [hwmark, List.map_append, obfuscateContent_keys]
    rfl
  refine ⟨?_, hkeys, ?_⟩
  · rw [hwmark, obfuscateContent_eq_map]
  · intro k hk
    rw [hkeys] at hk
    rcases List.mem_append.mp hk with hk | hk
    · rcases List.mem_map.mp hk with ⟨i, hi, rfl⟩
      exact Or.inl ⟨i, List.mem_range.mp hi, rfl⟩
    · simp only [List.mem_singleton] at hk
      exact Or.inr hk

/-- Witness for the amended C10 at the one-key document. -/
theorem c10_witness :
    (secureContent envC10 defaultSmartConfig privDocC10).map Prod.fst =
      (List.range privDocC10.length).map (fun i => "k" ++ Nat.repr i) ++ ["_watermark"] :=
  (c10_amended envC10 defaultSmartConfig privDocC10 rfl rfl).2.1

/-! ## Claim C1: the security gate relative to the probe fetches -/

theorem measureLatency_st (env : LoaderEnv) (st : LoaderState) :
    (measureLatency env st).2 = bumpFetch st := by
  unfold measureLatency fetchUrl
  cases env.fetch "/ping" <;> rfl

theorem measureBandwidth_st (env : LoaderEnv) (st : LoaderState) :
    (measureBandwidth env st).2 = bumpFetch st := by
  unfold measureBandwidth fetchUrl
  cases env.fetch "/test-file.txt" with
  | netErr => rfl
  | resp s cl b => cases cl <;> rfl

/-- The network assessment issues exactly the two probe fetches and touches
no other loader state but the network history. -/
theorem assess_state (env : LoaderEnv) (st : LoaderState) :
    (assessNetworkQuality env st).2.fetchCount = st.fetchCount + 2 ∧
    (assessNetworkQuality env st).2.requestHistory = st.requestHistory ∧
    (assessNetworkQuality env st).2.cache = st.cache ∧
    (assessNetworkQuality env st).2.loadQualities = st.loadQualities := by
  simp only [assessNetworkQuality, recordNetworkQuality, measureLatency_st,
    measureBandwidth_st, bumpFetch]
  simp

/-- The rate-limit check passes for this call (source semantics: unknown
client id, or a window reset, or a count still under 10). -/
def rateLimitOk (env : LoaderEnv) (hist : List (String × RateEntry)) : Bool :=
  match alookup hist env.randomId with
  | none => true
  | some h => decide (h.lastRequest < env.nowMs - 60000) || decide (h.count < 10)

theorem checkRateLimit_ok (env : LoaderEnv) (st : LoaderState)
    (h : rateLimitOk env st.requestHistory = true) :
    (checkRateLimit env st).1 = Except.ok () ∧
    (checkRateLimit env st).2.fetchCount = st.fetchCount ∧
    (checkRateLimit env st).2.cache = st.cache := by
  unfold checkRateLimit
  unfold rateLimitOk at h
  cases hl : alookup st.requestHistory env.randomId with
  | none => simp [hl]
  | some e =>
      rw [hl] at h
      simp only [Bool.or_eq_true, decide_eq_true_eq] at h
      by_cases h2 : e.lastRequest < env.nowMs - 60000
      · simp [hl, h2]
      · have h3 : ¬ e.count ≥ 10 := by omega
        simp [hl, h2, h3]

theorem validateRequest_denied (env : LoaderEnv) (cfg : SmartConfig) (st : LoaderState)
    (ua : String) (hua : env.userAgent = some ua)
    (hterm : suspiciousTerms.any (fun term => strIncludes (strToLower ua) term) = true)
    (hanti : cfg.security.antiScraping = true)
    (hrl : rateLimitOk env st.requestHistory = true) :
    (validateRequest env cfg st).1 = Except.error LoadErr.accessDenied ∧
    (validateRequest env cfg st).2.fetchCount = st.fetchCount ∧
    (validateRequest env cfg st).2.cache = st.cache := by
  have hscrape : checkForScraping env = Except.error LoadErr.accessDenied := by
    unfold checkForScraping
    rw [hua]
    simp [hterm]
  unfold validateRequest
  by_cases hr : cfg.security.rateLimiting
  · rcases checkRateLimit_ok env st hrl with ⟨h1, h2, h3⟩
    cases hck : checkRateLimit env st with
    | mk r s =>
        rw [hck] at h1 h2 h3
        have h1e : r = Except.ok () := h1
        subst h1e
        have h2e : s.fetchCount = st.fetchCount := h2
        have h3e : s.cache = st.cache := h3
        simp [hr, hck, hanti, hscrape, h2e, h3e]
  · simp [hr, hanti, hscrape]

/-- Claim C1 as amended: with a denylisted user agent the gate rejects the
request with Access denied, but only after the two network-probe fetches
(the fetch counter at the raise is the entry count plus 2, never 0 for a
fresh counter), before any content fetch; and the rejection is caught by
loadContent's own fallback chain, so the caller receives a resolved
fallback response, not the exception. -/
theorem c1_amended (env : LoaderEnv) (cfg : SmartConfig) (contentType : String)
    (authToken : Option String) (useExisting : Bool) (existingProvider : Option Jobj)
    (st : LoaderState) (ua : String)
    (hua : env.userAgent = some ua)
    (hterm : suspiciousTerms.any (fun term => strIncludes (strToLower ua) term) = true)
    (hanti : cfg.security.antiScraping = true)
    (hrl : rateLimitOk env st.requestHistory = true) :
    (loadContentTry env cfg contentType authToken useExisting existingProvider st).1
      = Except.error LoadErr.accessDenied ∧
    (loadContentTry env cfg contentType authToken useExisting existingProvider st).2.fetchCount
      = st.fetchCount + 2 ∧
    loadContent env cfg contentType authToken useExisting existingProvider st
      = handleError env cfg contentType
          (loadContentTry env cfg contentType authToken useExisting existingProvider st).2 := by
  have hassess := assess_state env st
  have hrl2 : rateLimitOk env (assessNetworkQuality env st).2.requestHistory = true := by
    rw [hassess.2.1]
    exact hrl
  have hval := validateRequest_denied env cfg (assessNetworkQuality env st).2 ua hua hterm hanti hrl2
  have htry : loadContentTry env cfg contentType authToken useExisting existingProvider st
      = (Except.error LoadErr.accessDenied,
          (validateRequest env cfg (assessNetworkQuality env st).2).2) := by
    cases hv : validateRequest env cfg (assessNetworkQuality env st).2 with
    | mk r s2 =>
        rw [hv] at hval
        have hre : r = Except.error LoadErr.accessDenied := hval.1
        subst hre
        simp only [loadContentTry]
        rw [hv]
  refine ⟨?_, ?_, ?_⟩
  · rw [htry]
  · rw [htry]
    have := hval.2.1
    simp only at this
    rw [this, hassess.1]
  · unfold loadContent
    rw [htry]

def envBot : LoaderEnv :=
  { userAgent := some "Mozilla/5.0 HeadlessChrome"
    fetch := fun _ => FetchRes.netErr
    pingElapsedMs := 50, testFileElapsedMs := 1000, nowMs := 1000000
    randomId := "abc123", randomSession := "sess1" }

/-- Counterexample to claim C1 as stated: with the headless user agent the
gate does raise inside loadContent, but at the moment of the raise the
fetch-call counter is 2 (the latency and bandwidth probes already ran), not
0; and loadContent resolves with the fallback response (empty data, miss,
poor) instead of propagating the exception to the caller. -/
theorem c1_counterexample :
    (loadContentTry envBot defaultSmartConfig "auto" none false none emptyLoaderState).1
      = Except.error LoadErr.accessDenied ∧
    (loadContentTry envBot defaultSmartConfig "auto" none false none emptyLoaderState).2.fetchCount
      = 2 ∧
    (2 : Nat) ≠ 0 ∧
    (loadContent envBot defaultSmartConfig "auto" none false none emptyLoaderState).1.data = [] ∧
    (loadContent envBot defaultSmartConfig "auto" none false none emptyLoaderState).1.cacheStatus
      = "miss" := by
  refine ⟨rfl, rfl, by decide, rfl, rfl⟩

/-- Witness for the amended C1 at the concrete headless environment. -/
theorem c1_witness :
    loadContent envBot defaultSmartConfig "auto" none false none emptyLoaderState
      = handleError envBot defaultSmartConfig "auto"
          (loadContentTry envBot defaultSmartConfig "auto" none false none emptyLoaderState).2 :=
  (c1_amended envBot defaultSmartConfig "auto" none false none emptyLoaderState
    "Mozilla/5.0 HeadlessChrome" rfl (by decide) rfl rfl).2.2

/-! ## Claim C4: the post-gate fallback chain never rejects -/

/-- What the minimal-payload fetch resolves with: the parsed body of an ok
response, otherwise an empty object. -/
def minimalResult (env : LoaderEnv) : Jobj :=
  match env.fetch "/content/minimal.json" with
  | FetchRes.netErr => []
  | FetchRes.resp status _ body =>
      if statusOk status then
        match body with
        | Except.ok d => d
        | Except.error _ => []
      else []

theorem loadMinimalContent_spec (env : LoaderEnv) (st : LoaderState) :
    loadMinimalContent env st = (Except.ok (minimalResult env), bumpFetch st) := by
  unfold loadMinimalContent minimalResult fetchUrl
  cases env.fetch "/content/minimal.json" with
  | netErr => rfl
  | resp s cl b =>
      by_cases hs : statusOk s
      · cases b <;> simp [hs]
      · simp [hs]

/-- Claim C4: whenever the try-block of loadContent throws (in particular
on any error after the security gate), the call still resolves: the
fallback chain first accepts a stale cache entry for the content-type key
(up to one hour of absolute age, past TTL), else resolves with the minimal
payload fetch result, else with the empty object; the chain itself never
throws, and the response is tagged miss / poor / not SEO-optimized. -/
theorem c4_fallback_chain (env : LoaderEnv) (cfg : SmartConfig) (contentType : String)
    (authToken : Option String) (useExisting : Bool) (existingProvider : Option Jobj)
    (st : LoaderState)
    (herr : ∃ e, (loadContentTry env cfg contentType authToken useExisting existingProvider st).1
        = Except.error e) :
    (loadContent env cfg contentType authToken useExisting existingProvider st).1.data
      = (match getStaleCache
            (loadContentTry env cfg contentType authToken useExisting existingProvider st).2.cache
            contentType env.nowMs with
          | some d => d
          | none => minimalResult env) ∧
    (loadContent env cfg contentType authToken useExisting existingProvider st).1.cacheStatus
      = "miss" ∧
    (loadContent env cfg contentType authToken useExisting existingProvider st).1.networkQuality
      = "poor" ∧
    (loadContent env cfg contentType authToken useExisting existingProvider st).1.seoOptimized
      = false ∧
    (loadFallbackContent env contentType
        (loadContentTry env cfg contentType authToken useExisting existingProvider st).2).1
      = Except.ok
          (match getStaleCache
              (loadContentTry env cfg contentType authToken useExisting existingProvider st).2.cache
              contentType env.nowMs with
            | some d => d
            | none => minimalResult env) := by
  rcases herr with ⟨e, he⟩
  have hlc : loadContent env cfg contentType authToken useExisting existingProvider st
      = handleError env cfg contentType
          (loadContentTry env cfg contentType authToken useExisting existingProvider st).2 := by
    unfold loadContent
    cases hct : loadContentTry env cfg contentType authToken useExisting existingProvider st with
    | mk r s2 =>
        rw [hct] at he
        have hre : r = Except.error e := he
        subst hre
        rfl
  rw [hlc]
  have hfb : (loadFallbackContent env contentType
        (loadContentTry env cfg contentType authToken useExisting existingProvider st).2).1
      = Except.ok
          (match getStaleCache
              (loadContentTry env cfg contentType authToken useExisting existingProvider st).2.cache
              contentType env.nowMs with
            | some d => d
            | none => minimalResult env) := by
    unfold loadFallbackContent
    cases hstale : getStaleCache
        (loadContentTry env cfg contentType authToken useExisting existingProvider st).2.cache
        contentType env.nowMs with
    | some d => rfl
    | none => rw [loadMinimalContent_spec]
  refine ⟨?_, ?_, ?_, ?_, hfb⟩ <;>
    · unfold handleError
      cases hf : loadFallbackContent env contentType
          (loadContentTry env cfg contentType authToken useExisting existingProvider st).2 with
      | mk rf sf =>
          rw [hf] at hfb
          have hrf : rf = Except.ok
              (match getStaleCache
                  (loadContentTry env cfg contentType authToken useExisting existingProvider st).2.cache
                  contentType env.nowMs with
                | some d => d
                | none => minimalResult env) := hfb
          subst hrf
          rfl

def envC4 : LoaderEnv :=
  { userAgent := none
    fetch := fun url =>
      if url = "/content/minimal.json" then
        FetchRes.resp 200 none (Except.ok [("title", Jval.vStr "m")])
      else FetchRes.netErr
    pingElapsedMs := 50, testFileElapsedMs := 1000, nowMs := 1000
    randomId := "r", randomSession := "s" }

/-- Witness for C4: with every content fetch failing except the minimal
payload, the failed load resolves with the minimal payload data. -/
theorem c4_witness :
    (loadContent envC4 defaultSmartConfig "auto" none false none emptyLoaderState).1.data
      = [("title", Jval.vStr "m")] := by
  have h := c4_fallback_chain envC4 defaultSmartConfig "auto" none false none emptyLoaderState
    ⟨LoadErr.network, rfl⟩
  exact h.1.trans (by rfl)

end ArcIt
